import Mathlib

/-!
# Verification of the NEST Discovery-and-Ranking Engine

A shallow embedding of `src/nanda_core/discovery/agent_ranker.py` and
`src/nanda_core/discovery/agent_discovery.py`, together with theorems
settling the behavioural claims about scoring, ranking, filtering and
candidate gathering.

Numeric values (Python floats in the source) are modelled as rationals,
so arithmetic such as the weight sum is exact.  Python dictionaries with
`.get` defaults are modelled as structures with `Option` fields where the
missing / present distinction is observable, and as plain fields where a
missing key behaves identically to the default throughout the source.
The wall-clock read `datetime.now()` and the timestamp parser
`datetime.fromisoformat` used by `_score_availability` are library
inputs, not repository code: they enter the embedding as an explicit
`now : ℚ` argument and an explicit `parse : String → Option ℚ` argument
(`none` models the `ValueError` that the source catches).
-/

deriving instance DecidableEq for Except

namespace NEST

/-- Modelled from the spec: the `TaskAnalysis` value type produced by the
task analyzer (`task_analyzer.py` is imported by `agent_discovery.py` but is
not under `src/`); its fields are exactly the attributes the ranker and the
discovery pipeline read (`task_type`, `domain`, `complexity`,
`required_capabilities`, `keywords`, `confidence`), per spec §3. -/
structure TaskAnalysis where
  task_type : String
  domain : String
  complexity : String
  required_capabilities : List String
  keywords : List String
  confidence : ℚ
deriving DecidableEq, Repr

/-- An agent record as consumed by `AgentRanker`: the source reads the
record with `.get` using these keys.  Fields where a missing key is
observably different from every present value are `Option`; `capabilities`,
`domain`, `keywords` and `description` use the `.get` default (`[]` / `""`)
because a missing key and the default value behave identically in every
read of the source. -/
structure AgentRecord where
  agent_id : Option String
  capabilities : List String
  domain : String
  keywords : List String
  description : String
  status : Option String
  last_seen : Option String
  current_load : Option ℚ
deriving DecidableEq, Repr

/-- Per-agent performance metrics, read by `_score_performance` with
defaults `success_rate 0.7`, `avg_response_time 5.0`, `reliability 0.7`. -/
structure PerfMetrics where
  success_rate : Option ℚ
  avg_response_time : Option ℚ
  reliability : Option ℚ
deriving DecidableEq, Repr

/-- The `metadata` mapping attached to an `AgentScore` (sub-score name to
raw value); the source stores exactly these six entries. -/
structure ScoreMetadata where
  capability_score : ℚ
  domain_score : ℚ
  keyword_score : ℚ
  performance_score : ℚ
  availability_score : ℚ
  load_score : ℚ
deriving DecidableEq, Repr

/-- The `AgentScore` dataclass of `agent_ranker.py`. -/
structure AgentScore where
  agent_id : String
  score : ℚ
  confidence : ℚ
  match_reasons : List String
  metadata : ScoreMetadata
deriving DecidableEq, Repr

/-- The scoring-weight dictionary set in `AgentRanker.__init__`. -/
def weights : List (String × ℚ) :=
  [("capability_match", 0.35),
   ("domain_match", 0.25),
   ("keyword_match", 0.20),
   ("performance", 0.10),
   ("availability", 0.05),
   ("load", 0.05)]

/-- The `self.weights[k]` lookup. -/
def weight (k : String) : ℚ := (weights.lookup k).getD 0

/-- Python truthiness of an optional string field (`None` and `""` are
falsy). -/
def optStrTruthy : Option String → Bool
  | some s => s ≠ ""
  | none => false

/-- The Python `str.lower()` method (the same function as `String.toLower`, stated
by structural recursion over the character list so that closed instances
evaluate inside the kernel). -/
def pyLower (s : String) : String := ⟨s.data.map Char.toLower⟩

/-- Embeds `_score_capabilities`: returns the sub-score together with the reasons
it appends to `match_reasons`.  Set sizes from the Python `set(...)`
operations are modelled by deduplicated lists. -/
def scoreCapabilities (agent : AgentRecord) (task : TaskAnalysis) : ℚ × List String :=
  let agentCapabilities := agent.capabilities.dedup
  let requiredCapabilities := task.required_capabilities.dedup
  if requiredCapabilities.isEmpty then (0.7, [])
  else if agentCapabilities.isEmpty then (0.3, [])
  else
    let matchingCaps := agentCapabilities.filter (fun c => requiredCapabilities.contains c)
    let matchRatio : ℚ := (matchingCaps.length : ℚ) / (requiredCapabilities.length : ℚ)
    let reasons :=
      if matchingCaps.isEmpty then []
      else ["Matching capabilities: " ++ String.intercalate ", " matchingCaps]
    let matchRatio :=
      if matchingCaps.length = requiredCapabilities.length then
        let extraRelevant : ℚ := (agentCapabilities.length : ℚ) - (requiredCapabilities.length : ℚ)
        matchRatio + min 0.2 (extraRelevant * 0.05)
      else matchRatio
    (min 1.0 matchRatio, reasons)

/-- The `related_domains` table of `_calculate_domain_similarity`. -/
def relatedDomains : List (String × List String) :=
  [("technology", ["software", "it", "programming", "tech"]),
   ("finance", ["banking", "trading", "accounting", "fintech"]),
   ("healthcare", ["medical", "clinical", "pharmaceutical"]),
   ("marketing", ["advertising", "sales", "promotion"]),
   ("education", ["learning", "training", "academic"])]

/-- The `for main_domain, related in related_domains.items()` loop of
`_calculate_domain_similarity`, with its early returns. -/
def domainSimilarityLoop : List (String × List String) → String → String → ℚ
  | [], _, _ => 0.2
  | (mainDomain, related) :: rest, domain1, domain2 =>
    if domain1 ∈ related ∧ domain2 ∈ related then 0.8
    else if (domain1 = mainDomain ∧ domain2 ∈ related) ∨
            (domain2 = mainDomain ∧ domain1 ∈ related) then 0.9
    else domainSimilarityLoop rest domain1 domain2

/-- Embeds `_calculate_domain_similarity`. -/
def calculateDomainSimilarity (domain1 domain2 : String) : ℚ :=
  domainSimilarityLoop relatedDomains domain1 domain2

/-- Embeds `_score_domain`: sub-score plus appended reasons. -/
def scoreDomain (agent : AgentRecord) (task : TaskAnalysis) : ℚ × List String :=
  let agentDomain := pyLower agent.domain
  let taskDomain := pyLower task.domain
  if taskDomain = "general" then (0.7, [])
  else if agentDomain = "" ∨ agentDomain = "general" then (0.5, [])
  else if agentDomain = taskDomain then (1.0, ["Domain expertise: " ++ taskDomain])
  else
    let domainSimilarity := calculateDomainSimilarity agentDomain taskDomain
    (domainSimilarity,
     if domainSimilarity > 0.5 then ["Related domain: " ++ agentDomain] else [])

/-- The Python substring test `needle in haystack` on strings. -/
def strContains (haystack needle : String) : Bool :=
  decide (needle.toList <:+: haystack.toList)

/-- Embeds `_score_keywords`: sub-score plus appended reasons.  `all_matches`
(the union of direct keyword matches and description matches, both subsets
of the task-keyword set) is modelled as a filter over the deduplicated
task keywords, which has the same size as the Python set union. -/
def scoreKeywords (agent : AgentRecord) (task : TaskAnalysis) : ℚ × List String :=
  let agentKeywords := (agent.keywords.map pyLower).dedup
  let agentDescription := pyLower agent.description
  let taskKeywords := (task.keywords.map pyLower).dedup
  if taskKeywords.isEmpty then (0.7, [])
  else
    let allMatches := taskKeywords.filter
      (fun k => agentKeywords.contains k || strContains agentDescription k)
    let reasons :=
      if allMatches.isEmpty then []
      else ["Keyword matches: " ++ String.intercalate ", " allMatches]
    let matchRatio : ℚ := (allMatches.length : ℚ) / (taskKeywords.length : ℚ)
    (min 1.0 matchRatio, reasons)

/-- Embeds `_score_performance`.  A `performance_data` of `None` and of `{}` behave
identically (both falsy), so the snapshot is a single association list. -/
def scorePerformance (agent : AgentRecord)
    (performanceData : List (String × PerfMetrics)) : ℚ :=
  if performanceData.isEmpty then 0.7
  else
    match agent.agent_id with
    | none => 0.7
    | some agentId =>
      match performanceData.lookup agentId with
      | none => 0.7
      | some perf =>
        let successRate := perf.success_rate.getD 0.7
        let avgResponseTime := perf.avg_response_time.getD 5.0
        let reliability := perf.reliability.getD 0.7
        let timeScore := max 0.0 (1.0 - avgResponseTime / 30.0)
        min 1.0 (successRate * 0.5 + timeScore * 0.3 + reliability * 0.2)

/-- Embeds `_score_availability`.  Here `parse` models `datetime.fromisoformat` (with
`none` for the caught `ValueError`) and `now` models `datetime.now()`,
both in seconds; the thresholds are 5 minutes, 1 hour, 1 day. -/
def scoreAvailability (parse : String → Option ℚ) (now : ℚ)
    (agent : AgentRecord) : ℚ :=
  let status := pyLower (agent.status.getD "unknown")
  if status = "offline" then 0.0
  else if status = "busy" then 0.3
  else if status = "available" ∨ status = "online" then 1.0
  else
    match agent.last_seen with
    | some lastSeenStr =>
      if lastSeenStr ≠ "" then
        match parse lastSeenStr with
        | some lastSeen =>
          let timeDiff := now - lastSeen
          if timeDiff < 5 * 60 then 1.0
          else if timeDiff < 60 * 60 then 0.8
          else if timeDiff < 24 * 60 * 60 then 0.5
          else 0.2
        | none => 0.5
      else 0.5
    | none => 0.5

/-- Embeds `_score_load`. -/
def scoreLoad (agent : AgentRecord) : ℚ :=
  1.0 - agent.current_load.getD 0.5

/-- Embeds `_calculate_confidence`. -/
def calculateConfidence (agent : AgentRecord) (task : TaskAnalysis) : ℚ :=
  let confidence : ℚ := 0.5
  let confidence := if agent.capabilities.isEmpty then confidence else confidence + 0.2
  let confidence := if agent.description ≠ "" then confidence + 0.1 else confidence
  let confidence := if agent.domain ≠ "" then confidence + 0.1 else confidence
  let confidence := if optStrTruthy agent.last_seen then confidence + 0.05 else confidence
  let confidence := if optStrTruthy agent.status then confidence + 0.05 else confidence
  min 1.0 (confidence * task.confidence)

/-- Embeds `_score_agent`: the six sub-scores, the weighted total, the confidence,
and the concatenated match reasons (capability, then domain, then keyword,
in source order). -/
def scoreAgent (parse : String → Option ℚ) (now : ℚ) (agent : AgentRecord)
    (task : TaskAnalysis) (performanceData : List (String × PerfMetrics)) : AgentScore :=
  let agentId := agent.agent_id.getD "unknown"
  let capability := scoreCapabilities agent task
  let domain := scoreDomain agent task
  let keyword := scoreKeywords agent task
  let performanceScore := scorePerformance agent performanceData
  let availabilityScore := scoreAvailability parse now agent
  let loadScore := scoreLoad agent
  let totalScore :=
    capability.1 * weight "capability_match" +
    domain.1 * weight "domain_match" +
    keyword.1 * weight "keyword_match" +
    performanceScore * weight "performance" +
    availabilityScore * weight "availability" +
    loadScore * weight "load"
  { agent_id := agentId
    score := totalScore
    confidence := calculateConfidence agent task
    match_reasons := capability.2 ++ domain.2 ++ keyword.2
    metadata :=
      { capability_score := capability.1
        domain_score := domain.1
        keyword_score := keyword.1
        performance_score := performanceScore
        availability_score := availabilityScore
        load_score := loadScore } }

/-- The comparison used by `agent_scores.sort(key=lambda x: x.score,
reverse=True)`: a stable sort that puts higher scores first. -/
def scoreDescending (a b : AgentScore) : Bool :=
  b.score ≤ a.score

/-- Embeds `rank_agents`: score every agent, then sort descending by score
(the Python `list.sort` is stable; `mergeSort` with this comparison models
it exactly). -/
def rankAgents (parse : String → Option ℚ) (now : ℚ) (agents : List AgentRecord)
    (task : TaskAnalysis) (performanceData : List (String × PerfMetrics)) :
    List AgentScore :=
  ((agents.map (fun a => scoreAgent parse now a task performanceData)).mergeSort
    scoreDescending)

/-- Embeds `get_top_recommendations`: keep entries with `score >= min_score and
confidence >= 0.4`, then truncate to `limit` (modelled as a natural
number; the Python default is 5). -/
def getTopRecommendations (agentScores : List AgentScore) (limit : ℕ)
    (minScore : ℚ) : List AgentScore :=
  (agentScores.filter
    (fun s => decide (minScore ≤ s.score) && decide ((0.4 : ℚ) ≤ s.confidence))).take limit

/-! ## Candidate gathering (`agent_discovery.py`)

`_get_relevant_agents` works on the raw registry records, which are Python
dictionaries mapping string keys to heterogeneous values; its deduplication
builds `tuple(sorted(agent.items()))` keys and inserts them into a `set`,
which *hashes* them.  To capture that faithfully the discovery side is
embedded over a small model of Python values in which hashability is
observable: a tuple whose entries include a `list` raises
`TypeError: unhashable type` when hashed. -/

/-- A Python value as it appears in a registry record: strings, numbers,
booleans, and (unhashable) lists — the container-valued record fields of
this system (`capabilities`, `tags`, `keywords`) are lists of strings. -/
inductive PyVal where
  | str : String → PyVal
  | num : ℚ → PyVal
  | boolean : Bool → PyVal
  | list : List String → PyVal
deriving DecidableEq, Repr

/-- Whether the Python `hash` succeeds on the value (`list` has no
`__hash__`; `str`, numbers and `bool` are hashable). -/
def PyVal.hashable : PyVal → Bool
  | .list _ => false
  | _ => true

/-- A registry record: a Python dict with string keys. -/
abbrev PyDict := List (String × PyVal)

/-- Embeds `agent.get(k)`. -/
def pyGet (agent : PyDict) (k : String) : Option PyVal :=
  List.lookup k agent

/-- Embeds `agent.get(k, "").lower()` for a field that the data model types as a
string (spec §3); a missing key yields `""`. -/
def pyStrFieldLower (agent : PyDict) (k : String) : String :=
  match pyGet agent k with
  | some (.str s) => pyLower s
  | _ => ""

/-- String order on the underlying character lists: exactly `String.le`
(`a ≤ b ↔ ¬ b < a`, with `<` the lexicographic order on `data`). -/
def keyLE (a b : String) : Bool := !decide (b.data < a.data)

/-- Insert an item into a key-sorted item list (an insertion step of
the Python `sorted` on `agent.items()`; dict keys are unique, so any
comparison-sort produces the same result). -/
def insertByKey (kv : String × PyVal) : PyDict → PyDict
  | [] => [kv]
  | x :: xs => if keyLE kv.1 x.1 then kv :: x :: xs else x :: insertByKey kv xs

/-- Embeds `sorted(agent.items())`: items ordered by their string keys. -/
def sortItems : PyDict → PyDict
  | [] => []
  | x :: xs => insertByKey x (sortItems xs)

/-- Embeds `tuple(sorted(agent.items()))` followed by the hashing performed when
the tuple is inserted into the `agents` set: hashing the tuple raises
`TypeError` when any value in it is unhashable. -/
def hashableSortedItems (agent : PyDict) : Except String PyDict :=
  if agent.all (fun kv => kv.2.hashable) then
    Except.ok (sortItems agent)
  else
    Except.error "TypeError: unhashable type"

/-- The caller-supplied filter mapping accepted by `_apply_filters`: the
four keys the source reads (`min_score` is read but intentionally not
applied). -/
structure Filters where
  status : Option PyVal
  min_score : Option PyVal
  exclude_agents : Option (List PyVal)
  domain : Option String
deriving Repr

/-- Embeds `_apply_filters`, in source order: `status` (exact equality against the
value on the record), `min_score` (a deliberate no-op), `exclude_agents`
(membership of the `agent_id` of the record in the exclusion set), `domain`
(case-insensitive equality; the filter value is a string per the call
contract). -/
def applyFilters (agents : List PyDict) (filters : Filters) : List PyDict :=
  let filtered := agents
  let filtered :=
    match filters.status with
    | some v => filtered.filter (fun a => decide (pyGet a "status" = some v))
    | none => filtered
  let filtered :=
    match filters.exclude_agents with
    | some excludeSet =>
      filtered.filter (fun a => !(excludeSet.any (fun e => decide (pyGet a "agent_id" = some e))))
    | none => filtered
  let filtered :=
    match filters.domain with
    | some d => filtered.filter (fun a => pyStrFieldLower a "domain" = pyLower d)
    | none => filtered
  filtered

/-- The three conditional registry queries of `_get_relevant_agents`: the
capability search runs when `required_capabilities` is truthy, the domain
search when `domain` is truthy and not `"general"`, the keyword search when
`keywords` is truthy.  The query *results* are inputs here (the registry
client is a collaborator that never raises and degrades to `[]`). -/
def usedQueryResults (capResults domainResults keywordResults : List PyDict)
    (task : TaskAnalysis) : List PyDict :=
  (if task.required_capabilities.isEmpty then [] else capResults) ++
  (if task.domain ≠ "" ∧ task.domain ≠ "general" then domainResults else []) ++
  (if task.keywords.isEmpty then [] else keywordResults)

/-- Key every gathered record by `tuple(sorted(agent.items()))`, in order,
stopping at the first record whose items cannot be hashed (the `TypeError`
escapes the generator consumed by `set.update`). -/
def keyedRecords : List PyDict → Except String (List PyDict)
  | [] => Except.ok []
  | a :: rest =>
    match hashableSortedItems a with
    | .error e => .error e
    | .ok k =>
      match keyedRecords rest with
      | .error e => .error e
      | .ok ks => .ok (k :: ks)

/-- The `agents` set of `_get_relevant_agents` after the three updates,
converted back to dicts: each record is keyed by its hashed sorted items
(which can raise), and structural duplicates collapse. -/
def unionCandidates (capResults domainResults keywordResults : List PyDict)
    (task : TaskAnalysis) : Except String (List PyDict) := do
  let keys ← keyedRecords (usedQueryResults capResults domainResults keywordResults task)
  pure keys.dedup

/-- Embeds `if filters: agent_list = self._apply_filters(agent_list, filters)`. -/
def applyOptFilters (filters : Option Filters) (agents : List PyDict) : List PyDict :=
  match filters with
  | some f => applyFilters agents f
  | none => agents

/-- Embeds `_get_relevant_agents`: union the query results with structural
deduplication, apply the caller filters when present, and fall back to the
full registry listing when the resulting list is empty.  Note the source
applies the filters *before* the emptiness check, and the fallback listing
is returned unfiltered. -/
def getRelevantAgents (capResults domainResults keywordResults fullListing : List PyDict)
    (task : TaskAnalysis) (filters : Option Filters) : Except String (List PyDict) := do
  let agentList ← unionCandidates capResults domainResults keywordResults task
  let agentList := applyOptFilters filters agentList
  pure (if agentList.isEmpty then fullListing else agentList)

/-- Embeds `_generate_suggestions`. -/
def generateSuggestions (task : TaskAnalysis) (recommendations : List AgentScore) :
    List String :=
  let suggestions : List String :=
    if recommendations.isEmpty then
      ["No agents found matching your requirements",
       "Try searching for agents with '" ++ task.domain ++ "' domain expertise",
       "Consider breaking down your task into smaller components",
       "Check if your required capabilities are too specific"]
    else if recommendations.length = 1 then
      ["Only one agent found - consider broadening your search criteria"]
    else if task.complexity = "complex" then
      ["This appears to be a complex task",
       "Consider using multiple agents for different components",
       "Review the top agents' capabilities to ensure full coverage"]
    else []
  let suggestions := suggestions ++
    (if task.task_type = "data_analysis" then
      ["For data analysis tasks, ensure agents have visualization capabilities"]
     else if task.task_type = "automation" then
      ["For automation, look for agents with workflow management features"]
     else [])
  suggestions ++
    (match recommendations.head? with
     | some top =>
       if top.score < 0.7 then
         ["Match confidence is moderate - review agent details carefully"]
       else []
     | none => [])

/-- Modelled from the spec: the Python standard-library parser
`datetime.fromisoformat` invoked by `_score_availability` (library code,
not part of this repository).  It accepts `YYYY-MM-DDTHH:MM:SS` and maps
it to a timestamp in seconds on an axis that is strictly increasing in
each field; strings of any other shape yield `none` (the library raises
`ValueError`, which the source catches).  Only *differences* between the
parsed timestamp and `now` reach the availability thresholds, so the exact
calendar arithmetic is irrelevant to every claim. -/
def splitOnChar (sep : Char) : List Char → List (List Char)
  | [] => [[]]
  | c :: cs =>
    match splitOnChar sep cs with
    | [] => [[]]
    | group :: groups =>
      if c = sep then [] :: group :: groups else (c :: group) :: groups

/-- Read a non-empty all-digit character group as a number. -/
def digitsToNat? (cs : List Char) : Option ℕ :=
  if !cs.isEmpty && cs.all Char.isDigit then
    some (cs.foldl (fun n c => n * 10 + (c.toNat - 48)) 0)
  else
    none

def isoParse (s : String) : Option ℚ :=
  match splitOnChar 'T' s.data with
  | [date, time] =>
    match splitOnChar '-' date, splitOnChar ':' time with
    | [y, mo, d], [h, mi, sec] => do
      let yn ← digitsToNat? y
      let mon ← digitsToNat? mo
      let dn ← digitsToNat? d
      let hn ← digitsToNat? h
      let minn ← digitsToNat? mi
      let sn ← digitsToNat? sec
      if y.length = 4 ∧ mo.length = 2 ∧ d.length = 2 ∧
          h.length = 2 ∧ mi.length = 2 ∧ sec.length = 2 then
        pure ((((((yn * 372 + mon * 31 + dn) * 24 + hn) * 60 + minn) * 60 + sn : ℕ) : ℚ))
      else
        none
    | _, _ => none
  | _ => none

/-! ## Helper lemmas

Batteries marks the `Rat` arithmetic operations `@[irreducible]`; closed
rational computations below are discharged by `decide`, which needs them
to unfold, so they are made semireducible locally. -/

section Proofs

attribute [local semireducible] Rat.ofScientific Rat.add Rat.mul Rat.sub Rat.inv

/-- The stated range of a performance-metrics entry (spec §3/§4.1): rates
in `[0,1]`, a non-negative response time; the ranges are phrased on the
values after the `.get` defaults of the source, which themselves lie in
range. -/
def metricsOk (m : PerfMetrics) : Prop :=
  0 ≤ m.success_rate.getD 0.7 ∧ m.success_rate.getD 0.7 ≤ 1 ∧
  0 ≤ m.avg_response_time.getD 5.0 ∧
  0 ≤ m.reliability.getD 0.7 ∧ m.reliability.getD 0.7 ≤ 1

instance (m : PerfMetrics) : Decidable (metricsOk m) := by
  unfold metricsOk; infer_instance

theorem mem_of_lookup_eq_some {α : Type} {k : String} {v : α}
    {l : List (String × α)} (h : l.lookup k = some v) : (k, v) ∈ l := by
  induction l with
  | nil => simp [List.lookup] at h
  | cons x xs ih =>
    obtain ⟨k', v'⟩ := x
    rw [List.lookup] at h
    split at h
    · rename_i heq
      obtain rfl : v' = v := by simpa using h
      obtain rfl : k = k' := by simpa using heq
      exact List.mem_cons_self _ _
    · exact List.mem_cons_of_mem _ (ih h)

theorem scoreCapabilities_bounds (agent : AgentRecord) (task : TaskAnalysis) :
    (scoreCapabilities agent task).1 ∈ Set.Icc (0:ℚ) 1 := by
  simp only [scoreCapabilities]
  split
  · norm_num [Set.mem_Icc]
  · split
    · norm_num [Set.mem_Icc]
    · rw [Set.mem_Icc]
      refine ⟨le_min (by norm_num) ?_, le_trans (min_le_left _ _) (by norm_num)⟩
      have hR : (0:ℚ) ≤
          ((List.filter (fun c => task.required_capabilities.dedup.contains c)
            agent.capabilities.dedup).length : ℚ) /
            (task.required_capabilities.dedup.length : ℚ) := by positivity
      split
      · rename_i hlen
        have hf : (List.filter (fun c => task.required_capabilities.dedup.contains c)
            agent.capabilities.dedup).length ≤ agent.capabilities.dedup.length :=
          List.length_filter_le _ _
        have hRA : (task.required_capabilities.dedup.length : ℚ) ≤
            (agent.capabilities.dedup.length : ℚ) := by
          exact_mod_cast hlen ▸ hf
        refine add_nonneg hR (le_min (by norm_num) (by nlinarith))
      · exact hR

theorem domainSimilarityLoop_bounds (table : List (String × List String))
    (d1 d2 : String) :
    domainSimilarityLoop table d1 d2 ∈ Set.Icc (0:ℚ) 1 := by
  induction table with
  | nil =>
    unfold domainSimilarityLoop
    norm_num [Set.mem_Icc]
  | cons e rest ih =>
    obtain ⟨m, r⟩ := e
    unfold domainSimilarityLoop
    split
    · norm_num [Set.mem_Icc]
    · split
      · norm_num [Set.mem_Icc]
      · exact ih

theorem scoreDomain_bounds (agent : AgentRecord) (task : TaskAnalysis) :
    (scoreDomain agent task).1 ∈ Set.Icc (0:ℚ) 1 := by
  simp only [scoreDomain]
  split
  · norm_num [Set.mem_Icc]
  · split
    · norm_num [Set.mem_Icc]
    · split
      · norm_num [Set.mem_Icc]
      · exact domainSimilarityLoop_bounds relatedDomains _ _

theorem scoreKeywords_bounds (agent : AgentRecord) (task : TaskAnalysis) :
    (scoreKeywords agent task).1 ∈ Set.Icc (0:ℚ) 1 := by
  simp only [scoreKeywords]
  split
  · norm_num [Set.mem_Icc]
  · rw [Set.mem_Icc]
    exact ⟨le_min (by norm_num) (by positivity),
      le_trans (min_le_left _ _) (by norm_num)⟩

theorem scorePerformance_bounds (agent : AgentRecord)
    (performanceData : List (String × PerfMetrics))
    (h : ∀ p ∈ performanceData, metricsOk p.2) :
    scorePerformance agent performanceData ∈ Set.Icc (0:ℚ) 1 := by
  simp only [scorePerformance]
  split
  · norm_num [Set.mem_Icc]
  · cases hid : agent.agent_id with
    | none => norm_num [Set.mem_Icc]
    | some aid =>
      simp only
      cases hl : performanceData.lookup aid with
      | none => norm_num [Set.mem_Icc]
      | some perf =>
        have hm : metricsOk perf := h (aid, perf) (mem_of_lookup_eq_some hl)
        obtain ⟨h1, h2, h3, h4, h5⟩ := hm
        simp only
        rw [Set.mem_Icc]
        constructor
        · refine le_min (by norm_num) ?_
          have hts : (0:ℚ) ≤
              max 0.0 (1.0 - perf.avg_response_time.getD 5.0 / 30.0) :=
            le_max_left _ _
          nlinarith
        · exact le_trans (min_le_left _ _) (by norm_num)

theorem scoreAvailability_bounds (parse : String → Option ℚ) (now : ℚ)
    (agent : AgentRecord) :
    scoreAvailability parse now agent ∈ Set.Icc (0:ℚ) 1 := by
  simp only [scoreAvailability]
  split
  · norm_num [Set.mem_Icc]
  · split
    · norm_num [Set.mem_Icc]
    · split
      · norm_num [Set.mem_Icc]
      · split
        · split
          · split
            · split
              · norm_num [Set.mem_Icc]
              · split
                · norm_num [Set.mem_Icc]
                · split <;> norm_num [Set.mem_Icc]
            · norm_num [Set.mem_Icc]
          · norm_num [Set.mem_Icc]
        · norm_num [Set.mem_Icc]

theorem scoreLoad_bounds (agent : AgentRecord)
    (h : 0 ≤ agent.current_load.getD 0.5 ∧ agent.current_load.getD 0.5 ≤ 1) :
    scoreLoad agent ∈ Set.Icc (0:ℚ) 1 := by
  simp only [scoreLoad]
  rw [Set.mem_Icc]
  constructor <;> nlinarith [h.1, h.2]

theorem weight_capability : weight "capability_match" = 0.35 := by decide
theorem weight_domain : weight "domain_match" = 0.25 := by decide
theorem weight_keyword : weight "keyword_match" = 0.20 := by decide
theorem weight_performance : weight "performance" = 0.10 := by decide
theorem weight_availability : weight "availability" = 0.05 := by decide
theorem weight_load : weight "load" = 0.05 := by decide

/-! ## Claim theorems -/

/-- C1: for every agent record whose `current_load` lies in `[0,1]` and
every task analysis and performance snapshot with metrics in their stated
ranges, the six scoring weights sum to exactly 1.0, each of the six
sub-scores recorded by `score_agent` in the `AgentScore` metadata lies in
`[0,1]`, and the combined weighted score lies in `[0,1]`. -/
theorem scoreAgent_weights_and_bounds (parse : String → Option ℚ) (now : ℚ)
    (agent : AgentRecord) (task : TaskAnalysis)
    (performanceData : List (String × PerfMetrics))
    (hload : 0 ≤ agent.current_load.getD 0.5 ∧ agent.current_load.getD 0.5 ≤ 1)
    (hperf : ∀ p ∈ performanceData, metricsOk p.2) :
    (weights.map Prod.snd).sum = 1 ∧
    (scoreAgent parse now agent task performanceData).metadata.capability_score
        ∈ Set.Icc (0:ℚ) 1 ∧
    (scoreAgent parse now agent task performanceData).metadata.domain_score
        ∈ Set.Icc (0:ℚ) 1 ∧
    (scoreAgent parse now agent task performanceData).metadata.keyword_score
        ∈ Set.Icc (0:ℚ) 1 ∧
    (scoreAgent parse now agent task performanceData).metadata.performance_score
        ∈ Set.Icc (0:ℚ) 1 ∧
    (scoreAgent parse now agent task performanceData).metadata.availability_score
        ∈ Set.Icc (0:ℚ) 1 ∧
    (scoreAgent parse now agent task performanceData).metadata.load_score
        ∈ Set.Icc (0:ℚ) 1 ∧
    (scoreAgent parse now agent task performanceData).score ∈ Set.Icc (0:ℚ) 1 := by
  have hcap := scoreCapabilities_bounds agent task
  have hdom := scoreDomain_bounds agent task
  have hkw := scoreKeywords_bounds agent task
  have hpf := scorePerformance_bounds agent performanceData hperf
  have hav := scoreAvailability_bounds parse now agent
  have hld := scoreLoad_bounds agent hload
  rw [Set.mem_Icc] at hcap hdom hkw hpf hav hld
  refine ⟨by decide, ?_, ?_, ?_, ?_, ?_, ?_, ?_⟩ <;>
    simp only [scoreAgent, weight_capability, weight_domain, weight_keyword,
      weight_performance, weight_availability, weight_load, Set.mem_Icc]
  · exact hcap
  · exact hdom
  · exact hkw
  · exact hpf
  · exact hav
  · exact hld
  · constructor <;> nlinarith [hcap.1, hcap.2, hdom.1, hdom.2, hkw.1, hkw.2,
      hpf.1, hpf.2, hav.1, hav.2, hld.1, hld.2]

/-- Concrete inputs used by witness instantiations. -/
def sampleAgent : AgentRecord :=
  { agent_id := some "agent-a", capabilities := ["nlp", "search"],
    domain := "technology", keywords := [], description := "",
    status := some "online", last_seen := none, current_load := some 0.2 }

def sampleTask : TaskAnalysis :=
  { task_type := "analysis", domain := "technology", complexity := "moderate",
    required_capabilities := ["nlp", "search"], keywords := ["search"],
    confidence := 0.9 }

def samplePerf : List (String × PerfMetrics) :=
  [("agent-a", { success_rate := some 0.9, avg_response_time := some 2,
                 reliability := some 0.8 })]

theorem scoreAgent_weights_and_bounds_witness :
    ((0 ≤ sampleAgent.current_load.getD 0.5 ∧ sampleAgent.current_load.getD 0.5 ≤ 1) ∧
      (∀ p ∈ samplePerf, metricsOk p.2)) ∧
    (weights.map Prod.snd).sum = 1 ∧
    (scoreAgent isoParse 0 sampleAgent sampleTask samplePerf).score ∈ Set.Icc (0:ℚ) 1 :=
  ⟨⟨by decide, by decide⟩,
    (scoreAgent_weights_and_bounds isoParse 0 sampleAgent sampleTask samplePerf
        (by decide) (by decide)).1,
    (scoreAgent_weights_and_bounds isoParse 0 sampleAgent sampleTask samplePerf
        (by decide) (by decide)).2.2.2.2.2.2.2⟩

/-- C2: `get_top_recommendations` returns exactly the entries with
`score ≥ min_score` and `confidence ≥ 0.4`, in their original order
(a sublist of the input), truncated to the first `limit` entries; in
particular every returned entry has `confidence ≥ 0.4` whatever
`min_score` is. -/
theorem getTopRecommendations_spec (agentScores : List AgentScore) (limit : ℕ)
    (minScore : ℚ) :
    getTopRecommendations agentScores limit minScore =
      (agentScores.filter
        (fun s => decide (minScore ≤ s.score) && decide ((0.4:ℚ) ≤ s.confidence))).take
        limit ∧
    (getTopRecommendations agentScores limit minScore).Sublist agentScores ∧
    ∀ s ∈ getTopRecommendations agentScores limit minScore,
      minScore ≤ s.score ∧ (0.4:ℚ) ≤ s.confidence := by
  refine ⟨rfl, (List.take_sublist _ _).trans (List.filter_sublist _), ?_⟩
  intro s hs
  have hs' : s ∈ (agentScores.filter
      (fun s => decide (minScore ≤ s.score) && decide ((0.4:ℚ) ≤ s.confidence))) :=
    List.mem_of_mem_take hs
  rw [List.mem_filter] at hs'
  have hp := hs'.2
  simp only [Bool.and_eq_true, decide_eq_true_eq] at hp
  exact hp

def sampleScore : AgentScore :=
  { agent_id := "s", score := 1, confidence := 1, match_reasons := [],
    metadata := { capability_score := 1, domain_score := 1, keyword_score := 1,
                  performance_score := 1, availability_score := 1, load_score := 1 } }

theorem getTopRecommendations_spec_witness :
    sampleScore ∈ getTopRecommendations [sampleScore] 5 0 ∧
    (0 ≤ sampleScore.score ∧ (0.4:ℚ) ≤ sampleScore.confidence) :=
  ⟨by decide, (getTopRecommendations_spec [sampleScore] 5 0).2.2 sampleScore (by decide)⟩

/-- C3: `rank_agents` returns a permutation of the per-agent scores,
sorted descending by `score`, and any two entries with equal scores keep
the relative order their agents had in the scored input (the Python
`list.sort` is stable). -/
theorem rankAgents_sorted_stable (parse : String → Option ℚ) (now : ℚ)
    (agents : List AgentRecord) (task : TaskAnalysis)
    (performanceData : List (String × PerfMetrics)) :
    (rankAgents parse now agents task performanceData).Perm
      (agents.map (fun a => scoreAgent parse now a task performanceData)) ∧
    (rankAgents parse now agents task performanceData).Pairwise
      (fun a b => b.score ≤ a.score) ∧
    ∀ a b : AgentScore, a.score = b.score →
      [a, b].Sublist (agents.map (fun a => scoreAgent parse now a task performanceData)) →
      [a, b].Sublist (rankAgents parse now agents task performanceData) := by
  have htrans : ∀ x y z : AgentScore,
      scoreDescending x y → scoreDescending y z → scoreDescending x z := by
    intro x y z
    simp only [scoreDescending, decide_eq_true_eq]
    exact fun h1 h2 => le_trans h2 h1
  have htotal : ∀ x y : AgentScore, scoreDescending x y || scoreDescending y x := by
    intro x y
    simp only [scoreDescending, Bool.or_eq_true, decide_eq_true_eq]
    exact le_total y.score x.score
  refine ⟨List.mergeSort_perm _ _, ?_, ?_⟩
  · have h := List.sorted_mergeSort htrans htotal
      (agents.map (fun a => scoreAgent parse now a task performanceData))
    exact h.imp (by simp only [scoreDescending, decide_eq_true_eq]; exact fun h => h)
  · intro a b hab hsub
    exact List.pair_sublist_mergeSort htrans htotal
      (by simp [scoreDescending, hab]) hsub

def twinAgent1 : AgentRecord :=
  { agent_id := some "twin-1", capabilities := [], domain := "",
    keywords := [], description := "", status := none,
    last_seen := none, current_load := none }

def twinAgent2 : AgentRecord :=
  { agent_id := some "twin-2", capabilities := [], domain := "",
    keywords := [], description := "", status := none,
    last_seen := none, current_load := none }

theorem rankAgents_sorted_stable_witness :
    [scoreAgent isoParse 0 twinAgent1 sampleTask [],
     scoreAgent isoParse 0 twinAgent2 sampleTask []].Sublist
      (rankAgents isoParse 0 [twinAgent1, twinAgent2] sampleTask []) :=
  (rankAgents_sorted_stable isoParse 0 [twinAgent1, twinAgent2] sampleTask []).2.2
    (scoreAgent isoParse 0 twinAgent1 sampleTask [])
    (scoreAgent isoParse 0 twinAgent2 sampleTask [])
    (by decide) (by decide)

/-- An agent whose availability is decided by the `last_seen` recency: no
status, a parseable timestamp. -/
def clockAgent : AgentRecord :=
  { agent_id := some "agent-u", capabilities := [], domain := "",
    keywords := [], description := "", status := none,
    last_seen := some "2020-01-01T00:00:00", current_load := none }

/-- C5 counterexample: the function `_score_agent` is *not* a function of only
(agent, task analysis, performance snapshot): `_score_availability` reads
`datetime.now()`, so the same three arguments evaluated at two different
wall-clock instants (here one minute and about 28 hours after the recorded
`last_seen`) give different `AgentScore` values. -/
theorem scoreAgent_clock_dependent :
    scoreAgent isoParse 64927180860 clockAgent sampleTask [] ≠
      scoreAgent isoParse 64927280800 clockAgent sampleTask [] := by decide

/-- The lowercased status `_score_availability` switches on. -/
def statusOf (agent : AgentRecord) : String :=
  pyLower (agent.status.getD "unknown")

/-- The status values with a fixed availability score. -/
def recognizedStatus (agent : AgentRecord) : Prop :=
  statusOf agent ∈ (["offline", "busy", "available", "online"] : List String)

instance (agent : AgentRecord) : Decidable (recognizedStatus agent) := by
  unfold recognizedStatus; infer_instance

/-- Holds when `last_seen` is absent, empty, or rejected by the timestamp parser. -/
def lastSeenUnusable (parse : String → Option ℚ) (agent : AgentRecord) : Prop :=
  agent.last_seen = none ∨ agent.last_seen = some "" ∨
    ∃ s, agent.last_seen = some s ∧ parse s = none

/-- C5 amended: scoring is deterministic once the wall-clock instant is
counted as an input — `score_agent` is a pure function of (agent, task,
performance snapshot, clock), and whenever the agent status is one of
the recognized values, or `last_seen` is absent/empty/unparseable, the
result does not depend on the clock at all. -/
theorem scoreAgent_deterministic_amended (parse : String → Option ℚ)
    (now now' : ℚ) (agent : AgentRecord) (task : TaskAnalysis)
    (performanceData : List (String × PerfMetrics))
    (h : recognizedStatus agent ∨ lastSeenUnusable parse agent) :
    scoreAgent parse now agent task performanceData =
      scoreAgent parse now' agent task performanceData := by
  have hav : scoreAvailability parse now agent = scoreAvailability parse now' agent := by
    simp only [scoreAvailability]
    rcases h with h | h
    · simp only [recognizedStatus, statusOf, List.mem_cons, List.mem_singleton,
        List.not_mem_nil, or_false] at h
      rcases h with h | h | h | h <;> simp [h]
    · rcases h with h | h | ⟨s, hs, hp⟩
      · simp [h]
      · simp [h]
      · simp [hs, hp]
  simp only [scoreAgent, hav]

theorem scoreAgent_deterministic_amended_witness :
    scoreAgent isoParse 0 sampleAgent sampleTask [] =
      scoreAgent isoParse 99999 sampleAgent sampleTask [] :=
  scoreAgent_deterministic_amended isoParse 0 99999 sampleAgent sampleTask []
    (Or.inl (by decide))

/-- The domain-similarity rule as the spec words it: 0.8 when the two
terms are synonyms inside the same cluster, 0.9 when one term is a
cluster name and the other one of its synonyms, 0.2 otherwise. -/
def specDomainSimilarity (d1 d2 : String) : ℚ :=
  if relatedDomains.any (fun e => decide (d1 ∈ e.2 ∧ d2 ∈ e.2)) then 0.8
  else if relatedDomains.any
      (fun e => decide ((d1 = e.1 ∧ d2 ∈ e.2) ∨ (d2 = e.1 ∧ d1 ∈ e.2))) then 0.9
  else 0.2

/-- The first-match loop of the source agrees with the two-pass reading of the spec
on any table whose cluster names never occur in a synonym list. -/
theorem domainSimilarityLoop_eq_spec (table : List (String × List String))
    (d1 d2 : String)
    (hname : ∀ e ∈ table, ∀ e' ∈ table, e.1 ∉ e'.2) :
    domainSimilarityLoop table d1 d2 =
      (if table.any (fun e => decide (d1 ∈ e.2 ∧ d2 ∈ e.2)) then 0.8
       else if table.any
          (fun e => decide ((d1 = e.1 ∧ d2 ∈ e.2) ∨ (d2 = e.1 ∧ d1 ∈ e.2))) then 0.9
       else 0.2) := by
  induction table with
  | nil => simp [domainSimilarityLoop]
  | cons e rest ih =>
    obtain ⟨m, r⟩ := e
    have hname' : ∀ a ∈ rest, ∀ b ∈ rest, a.1 ∉ b.2 := fun a ha b hb =>
      hname a (List.mem_cons_of_mem _ ha) b (List.mem_cons_of_mem _ hb)
    unfold domainSimilarityLoop
    by_cases hboth : d1 ∈ r ∧ d2 ∈ r
    · rw [if_pos hboth, if_pos]
      simp only [List.any_cons, Bool.or_eq_true, decide_eq_true_eq]
      exact Or.inl hboth
    · rw [if_neg hboth]
      by_cases hns : (d1 = m ∧ d2 ∈ r) ∨ (d2 = m ∧ d1 ∈ r)
      · rw [if_pos hns]
        have hnoboth : ¬ (((m, r) :: rest).any
            (fun e => decide (d1 ∈ e.2 ∧ d2 ∈ e.2)) = true) := by
          simp only [List.any_eq_true, decide_eq_true_eq, not_exists, not_and]
          intro e' he'
          rcases List.mem_cons.mp he' with heq | he'mem
          · subst heq
            exact fun h1 h2 => hboth ⟨h1, h2⟩
          · rcases hns with ⟨rfl, _⟩ | ⟨rfl, _⟩
            · exact fun h1 _ =>
                hname (d1, r) (List.mem_cons_self _ _) e'
                  (List.mem_cons_of_mem _ he'mem) h1
            · exact fun _ h2 =>
                hname (d2, r) (List.mem_cons_self _ _) e'
                  (List.mem_cons_of_mem _ he'mem) h2
        rw [if_neg hnoboth, if_pos]
        simp only [List.any_cons, Bool.or_eq_true, decide_eq_true_eq]
        exact Or.inl hns
      · rw [if_neg hns, ih hname']
        rw [List.any_cons, List.any_cons, decide_eq_false hboth, decide_eq_false hns,
          Bool.false_or, Bool.false_or]

/-- No cluster name of the concrete table occurs in any synonym list. -/
theorem relatedDomains_names_not_synonyms :
    ∀ e ∈ relatedDomains, ∀ e' ∈ relatedDomains, e.1 ∉ e'.2 := by decide

theorem calculateDomainSimilarity_eq_spec (d1 d2 : String) :
    calculateDomainSimilarity d1 d2 = specDomainSimilarity d1 d2 :=
  domainSimilarityLoop_eq_spec relatedDomains d1 d2 relatedDomains_names_not_synonyms

/-- C7: the domain sub-score is 0.7 when the task domain is "general",
else 0.5 when the agent domain is empty or "general", else 1.0 on an
exact case-insensitive match, else 0.8 when both domains are synonyms in
the same fixed cluster, 0.9 when one is a cluster name and the other one
of its synonyms, and 0.2 for any other pair. -/
theorem scoreDomain_cases (agent : AgentRecord) (task : TaskAnalysis) :
    (scoreDomain agent task).1 =
      (if pyLower task.domain = "general" then 0.7
       else if pyLower agent.domain = "" ∨ pyLower agent.domain = "general" then 0.5
       else if pyLower agent.domain = pyLower task.domain then 1.0
       else specDomainSimilarity (pyLower agent.domain) (pyLower task.domain)) := by
  simp only [scoreDomain]
  split
  · rfl
  · split
    · rfl
    · split
      · rfl
      · exact calculateDomainSimilarity_eq_spec _ _

/-- C8: availability is 0.0 for status "offline", 0.3 for "busy", 1.0 for
"available"/"online" — equations that hold for every `last_seen` and
clock; with an absent or unrecognized status it is decided by `last_seen`
recency (&lt;5 min → 1.0, &lt;1 h → 0.8, &lt;1 day → 0.5, older → 0.2),
and a missing, empty or unparseable `last_seen` yields the 0.5 default
instead of an error. -/
theorem scoreAvailability_cases (parse : String → Option ℚ) (now : ℚ)
    (agent : AgentRecord) :
    (statusOf agent = "offline" → scoreAvailability parse now agent = 0.0) ∧
    (statusOf agent = "busy" → scoreAvailability parse now agent = 0.3) ∧
    (statusOf agent = "available" ∨ statusOf agent = "online" →
      scoreAvailability parse now agent = 1.0) ∧
    (¬ recognizedStatus agent →
      (agent.last_seen = none → scoreAvailability parse now agent = 0.5) ∧
      (agent.last_seen = some "" → scoreAvailability parse now agent = 0.5) ∧
      (∀ s, agent.last_seen = some s → s ≠ "" → parse s = none →
        scoreAvailability parse now agent = 0.5) ∧
      (∀ s t, agent.last_seen = some s → s ≠ "" → parse s = some t →
        scoreAvailability parse now agent =
          (if now - t < 5 * 60 then 1.0
           else if now - t < 60 * 60 then 0.8
           else if now - t < 24 * 60 * 60 then 0.5
           else 0.2))) := by
  refine ⟨?_, ?_, ?_, ?_⟩
  · intro h
    simp only [statusOf] at h
    simp [scoreAvailability, h]
  · intro h
    simp only [statusOf] at h
    have hoff : pyLower (agent.status.getD "unknown") ≠ "offline" := by
      rw [h]; decide
    simp [scoreAvailability, h, hoff]
  · intro h
    simp only [statusOf] at h
    rcases h with h | h <;>
      (have hoff : pyLower (agent.status.getD "unknown") ≠ "offline" := by
        rw [h]; decide) <;>
      (have hbusy : pyLower (agent.status.getD "unknown") ≠ "busy" := by
        rw [h]; decide) <;>
      simp [scoreAvailability, h, hoff, hbusy]
  · intro h
    simp only [recognizedStatus, statusOf, List.mem_cons, List.mem_singleton,
      List.not_mem_nil, or_false, not_or] at h
    obtain ⟨h1, h2, h3, h4⟩ := h
    refine ⟨?_, ?_, ?_, ?_⟩
    · intro hls
      simp [scoreAvailability, h1, h2, h3, h4, hls]
    · intro hls
      simp [scoreAvailability, h1, h2, h3, h4, hls]
    · intro s hls hne hp
      simp [scoreAvailability, h1, h2, h3, h4, hls, hne, hp]
    · intro s t hls hne hp
      simp [scoreAvailability, h1, h2, h3, h4, hls, hne, hp]

def offlineAgent : AgentRecord :=
  { agent_id := some "off", capabilities := [], domain := "",
    keywords := [], description := "", status := some "offline",
    last_seen := some "2020-01-01T00:00:00", current_load := none }

def onlineAgent : AgentRecord :=
  { agent_id := some "on", capabilities := [], domain := "",
    keywords := [], description := "", status := some "Online",
    last_seen := some "2020-01-01T00:00:00", current_load := none }

def malformedAgent : AgentRecord :=
  { agent_id := some "bad-ts", capabilities := [], domain := "",
    keywords := [], description := "", status := none,
    last_seen := some "not-a-date", current_load := none }

theorem scoreAvailability_cases_witness :
    scoreAvailability isoParse 0 offlineAgent = 0.0 ∧
    scoreAvailability isoParse 12345 onlineAgent = 1.0 ∧
    scoreAvailability isoParse 0 malformedAgent = 0.5 ∧
    scoreAvailability isoParse 64927180860 clockAgent = 1.0 :=
  ⟨(scoreAvailability_cases isoParse 0 offlineAgent).1 (by decide),
   (scoreAvailability_cases isoParse 12345 onlineAgent).2.2.1 (Or.inr (by decide)),
   (((scoreAvailability_cases isoParse 0 malformedAgent).2.2.2 (by decide)).2.2.1
     "not-a-date" rfl (by decide) (by decide)),
   (((scoreAvailability_cases isoParse 64927180860 clockAgent).2.2.2 (by decide)).2.2.2
     "2020-01-01T00:00:00" 64927180800 rfl (by decide) (by decide)).trans (by decide)⟩

/-- C9 counterexample: on the scenario of the spec (`sampleAgent` is agent `A`
and `sampleTask` the stated task) the four quoted sub-scores come out as
claimed, but the combined score is 19/25 = 0.76 &lt; 0.85: `A` declares no
keywords and no description, so the keyword sub-score is 0 (weight 0.20),
and with no performance snapshot the performance sub-score is the neutral
0.7 (weight 0.10). -/
theorem scenario_combined_score_below_085 :
    (scoreAgent isoParse 0 sampleAgent sampleTask []).metadata.capability_score = 1.0 ∧
    (scoreAgent isoParse 0 sampleAgent sampleTask []).metadata.domain_score = 1.0 ∧
    (scoreAgent isoParse 0 sampleAgent sampleTask []).metadata.availability_score = 1.0 ∧
    (scoreAgent isoParse 0 sampleAgent sampleTask []).metadata.load_score = 0.8 ∧
    ¬ (0.85 ≤ (scoreAgent isoParse 0 sampleAgent sampleTask []).score) := by decide

/-- C9 amended: the scenario yields capability 1.0, domain 1.0,
availability 1.0, load 0.8 — and keyword 0.0, performance 0.7 — for a
combined weighted score of exactly 0.76; moreover for *every* performance
snapshot with metrics in range the combined score is at most 0.79, so the
claimed 0.85 is unreachable. -/
theorem scenario_combined_score_amended (performanceData : List (String × PerfMetrics))
    (hperf : ∀ p ∈ performanceData, metricsOk p.2) :
    (scoreAgent isoParse 0 sampleAgent sampleTask []).metadata =
      { capability_score := 1.0, domain_score := 1.0, keyword_score := 0.0,
        performance_score := 0.7, availability_score := 1.0, load_score := 0.8 } ∧
    (scoreAgent isoParse 0 sampleAgent sampleTask []).score = 0.76 ∧
    (scoreAgent isoParse 0 sampleAgent sampleTask performanceData).score ≤ 0.79 := by
  refine ⟨by decide, by decide, ?_⟩
  have h1 : (scoreCapabilities sampleAgent sampleTask).1 = 1 := by decide
  have h2 : (scoreDomain sampleAgent sampleTask).1 = 1 := by decide
  have h3 : (scoreKeywords sampleAgent sampleTask).1 = 0 := by decide
  have h4 : scoreAvailability isoParse 0 sampleAgent = 1 := by decide
  have h5 : scoreLoad sampleAgent = 0.8 := by decide
  have h6 := scorePerformance_bounds sampleAgent performanceData hperf
  rw [Set.mem_Icc] at h6
  simp only [scoreAgent, weight_capability, weight_domain, weight_keyword,
    weight_performance, weight_availability, weight_load, h1, h2, h3, h4, h5]
  nlinarith [h6.1, h6.2]

theorem scenario_combined_score_amended_witness :
    (∀ p ∈ samplePerf, metricsOk p.2) ∧
    (scoreAgent isoParse 0 sampleAgent sampleTask samplePerf).score ≤ 0.79 :=
  ⟨by decide, (scenario_combined_score_amended samplePerf (by decide)).2.2⟩

/-- C10: when the task analysis has confidence 0, every scored agent gets
confidence 0 (the metadata-based confidence is multiplied by the task
confidence), so the `confidence ≥ 0.4` floor excludes everything and the
recommendation list is empty for every candidate set, limit and
`min_score`. -/
theorem zero_task_confidence_empty_recommendations (parse : String → Option ℚ)
    (now : ℚ) (agents : List AgentRecord) (task : TaskAnalysis)
    (performanceData : List (String × PerfMetrics)) (limit : ℕ) (minScore : ℚ)
    (h : task.confidence = 0) :
    (∀ s ∈ rankAgents parse now agents task performanceData, s.confidence = 0) ∧
    getTopRecommendations (rankAgents parse now agents task performanceData)
      limit minScore = [] := by
  have hconf : ∀ agent, calculateConfidence agent task = 0 := by
    intro agent
    simp only [calculateConfidence, h, mul_zero]
    norm_num
  have hmem : ∀ s ∈ rankAgents parse now agents task performanceData,
      s.confidence = 0 := by
    intro s hs
    rw [rankAgents, List.mem_mergeSort, List.mem_map] at hs
    obtain ⟨a, _, rfl⟩ := hs
    simp only [scoreAgent]
    exact hconf a
  refine ⟨hmem, ?_⟩
  simp only [getTopRecommendations]
  rw [List.filter_eq_nil_iff.mpr, List.take_nil]
  intro s hs
  simp only [Bool.and_eq_true, decide_eq_true_eq, not_and]
  intro _
  rw [hmem s hs]
  norm_num

def zeroConfTask : TaskAnalysis :=
  { task_type := "analysis", domain := "technology", complexity := "moderate",
    required_capabilities := ["nlp", "search"], keywords := ["search"],
    confidence := 0 }

theorem zero_task_confidence_empty_recommendations_witness :
    zeroConfTask.confidence = 0 ∧
    getTopRecommendations (rankAgents isoParse 0 [sampleAgent] zeroConfTask [])
      5 0.3 = [] :=
  ⟨by decide, (zero_task_confidence_empty_recommendations isoParse 0 [sampleAgent]
    zeroConfTask [] 5 0.3 (by decide)).2⟩

/-- A registry record carrying a list-valued `capabilities` field, as real
registry responses do. -/
def listFieldRecord : PyDict :=
  [("agent_id", .str "a2"), ("capabilities", .list ["nlp", "search"])]

/-- A task that triggers the capability query. -/
def capOnlyTask : TaskAnalysis :=
  { task_type := "t", domain := "general", complexity := "simple",
    required_capabilities := ["nlp"], keywords := [], confidence := 1 }

/-- C4 counterexample: candidate gathering *does* raise: deduplication
hashes `tuple(sorted(agent.items()))`, and a record whose `capabilities`
field is a list (an unhashable value) makes that hash raise `TypeError`,
which `_get_relevant_agents` does not catch. -/
theorem gathering_raises_on_list_valued_field :
    getRelevantAgents [listFieldRecord] [] [] [] capOnlyTask none =
      Except.error "TypeError: unhashable type" := by decide

/-- Returns `true` exactly on a non-raising result. -/
def exceptOk {ε α : Type} : Except ε α → Bool
  | .ok _ => true
  | .error _ => false

theorem keyedRecords_ok_iff (l : List PyDict) :
    exceptOk (keyedRecords l) =
      l.all (fun d => d.all (fun kv => kv.2.hashable)) := by
  induction l with
  | nil => rfl
  | cons a rest ih =>
    simp only [keyedRecords, List.all_cons]
    cases hha : a.all (fun kv => kv.2.hashable) with
    | false => simp [hashableSortedItems, hha, exceptOk]
    | true =>
      simp only [hashableSortedItems, hha, if_true, Bool.true_and]
      cases hrest : keyedRecords rest with
      | error e => rw [← ih, hrest]
      | ok ks =>
        rw [← ih, hrest]
        rfl

/-- C4 amended: scoring, ranking, filtering and suggestion generation are
total, but candidate gathering completes without raising exactly when
every record in the registry query results it consumes carries only
hashable (non-container) field values; any record with a list-valued
field — capability lists included — makes the dedup step raise
`TypeError`. -/
theorem getRelevantAgents_ok_iff (capResults domainResults keywordResults
    fullListing : List PyDict) (task : TaskAnalysis) (filters : Option Filters) :
    exceptOk (getRelevantAgents capResults domainResults keywordResults
        fullListing task filters) =
      (usedQueryResults capResults domainResults keywordResults task).all
        (fun d => d.all (fun kv => kv.2.hashable)) := by
  rw [← keyedRecords_ok_iff (usedQueryResults capResults domainResults keywordResults task)]
  simp only [getRelevantAgents, unionCandidates]
  cases hk : keyedRecords (usedQueryResults capResults domainResults keywordResults task) with
  | error e => simp [hk, Bind.bind, Except.bind, exceptOk, pure, Except.pure]
  | ok ks => simp [hk, Bind.bind, Except.bind, exceptOk, pure, Except.pure]

/-- The offline record of the C6 counterexample. -/
def offlineRecord : PyDict := [("agent_id", .str "a1"), ("status", .str "offline")]

/-- The record served by the full registry listing. -/
def fullRecord : PyDict := [("agent_id", .str "full-agent")]

/-- The caller filter `{"status": "online"}`. -/
def statusFilter : Filters :=
  { status := some (.str "online"), min_score := none,
    exclude_agents := none, domain := none }

/-- A task triggering only the capability query (used for C6). -/
def capQueryTask : TaskAnalysis :=
  { task_type := "t", domain := "general", complexity := "simple",
    required_capabilities := ["x"], keywords := [], confidence := 1 }

/-- C6 counterexample: the deduplicated union is non-empty (it holds the
offline record), yet `_get_relevant_agents` falls back to the full
registry listing, because the status filter of the caller empties the union
*before* the emptiness check — and the fallback record is returned even
though it does not satisfy the status filter either, so the filters are
not applied to the returned candidate set. -/
theorem fallback_despite_nonempty_union :
    unionCandidates [offlineRecord] [] [] capQueryTask = Except.ok [offlineRecord] ∧
    applyFilters [offlineRecord] statusFilter = [] ∧
    getRelevantAgents [offlineRecord] [] [] [fullRecord] capQueryTask
      (some statusFilter) = Except.ok [fullRecord] ∧
    pyGet fullRecord "status" ≠ some (.str "online") := by decide

/-- C6 amended: the caller filters are applied to the deduplicated union
*before* the emptiness check, and the fallback to the full registry
unfiltered listing happens exactly when the post-filter candidate list is
empty; when it is non-empty, the filtered union is what is returned. -/
theorem getRelevantAgents_fallback_amended (capResults domainResults keywordResults
    fullListing : List PyDict) (task : TaskAnalysis) (filters : Option Filters)
    (u : List PyDict)
    (hu : unionCandidates capResults domainResults keywordResults task = Except.ok u) :
    (applyOptFilters filters u = [] →
      getRelevantAgents capResults domainResults keywordResults fullListing
        task filters = Except.ok fullListing) ∧
    (applyOptFilters filters u ≠ [] →
      getRelevantAgents capResults domainResults keywordResults fullListing
        task filters = Except.ok (applyOptFilters filters u)) := by
  have hbind : getRelevantAgents capResults domainResults keywordResults fullListing
      task filters =
        Except.ok (if (applyOptFilters filters u).isEmpty then fullListing
          else applyOptFilters filters u) := by
    rw [getRelevantAgents, hu]
    rfl
  constructor
  · intro h
    rw [hbind, h]
    rfl
  · intro h
    rw [hbind, if_neg]
    simpa [List.isEmpty_iff] using h

theorem getRelevantAgents_fallback_amended_witness :
    unionCandidates [offlineRecord] [] [] capQueryTask = Except.ok [offlineRecord] ∧
    applyOptFilters (some statusFilter) [offlineRecord] = [] ∧
    getRelevantAgents [offlineRecord] [] [] [fullRecord] capQueryTask
      (some statusFilter) = Except.ok [fullRecord] :=
  ⟨by decide, by decide,
    (getRelevantAgents_fallback_amended [offlineRecord] [] [] [fullRecord]
      capQueryTask (some statusFilter) [offlineRecord] (by decide)).1 (by decide)⟩

end Proofs

end NEST
